import Mathlib

/-!
Verification of the prompt-toolkit template engine (TypeScript sources under
`src/`).  The definitions below are a shallow embedding of the code in
`src/src/implementations/PromptConstructor.ts`,
`src/src/implementations/TemplateRegistry.ts` (shipped as `src/unnamed/part_003`)
and the data model of `PromptTypes.ts`.  JavaScript strings are modelled as
`List Char`, JS values as the inductive `Value`, records as association lists,
and the `Map` objects of the registry as insertion-ordered association lists.
Regex-based scanning (`String.replace` with the `g` flag) is modelled by
explicit left-to-right scanners that mirror the concrete regular expressions
used by the code.
-/

namespace PromptToolkit

/-! ## JS primitives -/

/-- The whitespace characters relevant to `\s` and `String.prototype.trim`
for the ASCII inputs the engine deals with. -/
def isJsWs (c : Char) : Bool := c == ' ' || c == '\t' || c == '\n' || c == '\r'

/-- Model of `String.prototype.trim` on a character list. -/
def jsTrim (cs : List Char) : List Char :=
  ((cs.dropWhile isJsWs).reverse.dropWhile isJsWs).reverse

/-- Trim a raw capture and pack it as a `String` (the code always calls
`.trim()` on a captured variable name). -/
def strOfTrim (cs : List Char) : String := String.mk (jsTrim cs)

/-- Model of `String.prototype.includes`: `pat` occurs as a contiguous
substring of `hay`. -/
def containsSub (hay pat : List Char) : Bool :=
  (List.range (hay.length + 1)).any (fun i => pat.isPrefixOf (hay.drop i))

/-- Model of `String.prototype.toLowerCase` (ASCII-faithful). -/
def strToLower (s : String) : String := String.mk (s.data.map Char.toLower)

/-! ## JS values

`Value` models the `unknown` runtime values stored in a context
(`Record<string, unknown>`): strings, numbers (the code only ever relies on
integral behaviour), booleans, arrays, plain objects, and `null`.
A missing key is `Option.none` at lookup sites (JS `undefined`). -/

inductive Value where
  | vNull
  | vStr (s : String)
  | vNum (n : Int)
  | vBool (b : Bool)
  | vList (xs : List Value)
  | vObj (fields : List (String × Value))

/-- Context variables: a JS record, keyed by name.  Lookup takes the first
binding, so newer bindings are consed on the front (matching the
last-key-wins semantics of `{ ...variables, this: item, ... }`). -/
abbrev Ctx := List (String × Value)

/-- Record lookup: `variables[name]`, `none` for a missing key. -/
def lookupVar (vars : Ctx) (name : String) : Option Value :=
  (vars.find? (fun p => p.1 == name)).map (·.2)

/-- JSON string quoting used by `JSON.stringify` (the escapes the templates
exercise). -/
def jsonQuoteChar (c : Char) : List Char :=
  if c == '"' then ['\\', '"']
  else if c == '\\' then ['\\', '\\']
  else if c == '\n' then ['\\', 'n']
  else if c == '\t' then ['\\', 't']
  else if c == '\r' then ['\\', 'r']
  else [c]

/-- Quote a string as a JSON literal. -/
def jsonQuote (s : String) : String :=
  String.mk ('"' :: (s.data.flatMap jsonQuoteChar) ++ ['"'])

/-- A run of `n` spaces, for `JSON.stringify(value, null, 2)` indentation. -/
def mkSpaces (n : Nat) : String := String.mk (List.replicate n ' ')

mutual
/-- Model of `JSON.stringify(value, null, 2)` at nesting level `lvl`. -/
def jsonIndent : Nat → Value → String
  | _, .vNull => "null"
  | _, .vStr s => jsonQuote s
  | _, .vNum n => toString n
  | _, .vBool b => if b then "true" else "false"
  | lvl, .vList xs =>
    match xs with
    | [] => "[]"
    | _ =>
      "[\n" ++
        String.intercalate ",\n"
          ((jsonIndentList (lvl + 1) xs).map (fun e => mkSpaces (2 * (lvl + 1)) ++ e)) ++
        "\n" ++ mkSpaces (2 * lvl) ++ "]"
  | lvl, .vObj fields =>
    match fields with
    | [] => "\x7b\x7d"
    | _ =>
      "\x7b\n" ++
        String.intercalate ",\n"
          ((jsonIndentFields (lvl + 1) fields).map (fun e => mkSpaces (2 * (lvl + 1)) ++ e)) ++
        "\n" ++ mkSpaces (2 * lvl) ++ "\x7d"

/-- Stringify the elements of an array for `jsonIndent`. -/
def jsonIndentList : Nat → List Value → List String
  | _, [] => []
  | lvl, x :: xs => jsonIndent lvl x :: jsonIndentList lvl xs

/-- Stringify the entries of an object for `jsonIndent`. -/
def jsonIndentFields : Nat → List (String × Value) → List String
  | _, [] => []
  | lvl, (k, v) :: fs => (jsonQuote k ++ ": " ++ jsonIndent lvl v) :: jsonIndentFields lvl fs
end

mutual
/-- Model of single-argument `JSON.stringify(value)` (compact form), used by
the registry search over metadata. -/
def jsonCompact : Value → String
  | .vNull => "null"
  | .vStr s => jsonQuote s
  | .vNum n => toString n
  | .vBool b => if b then "true" else "false"
  | .vList xs => "[" ++ String.intercalate "," (jsonCompactList xs) ++ "]"
  | .vObj fields => "\x7b" ++ String.intercalate "," (jsonCompactFields fields) ++ "\x7d"

/-- Compact stringification of array elements. -/
def jsonCompactList : List Value → List String
  | [] => []
  | x :: xs => jsonCompact x :: jsonCompactList xs

/-- Compact stringification of object entries. -/
def jsonCompactFields : List (String × Value) → List String
  | [] => []
  | (k, v) :: fs => (jsonQuote k ++ ":" ++ jsonCompact v) :: jsonCompactFields fs
end

mutual
/-- Model of `PromptConstructor.formatValue`: strings pass through, numbers
and booleans stringify, arrays join their formatted elements with a comma
and space, other non-null objects go through `JSON.stringify(value, null, 2)`,
and the residual `String(value)` branch renders `null` as `"null"`. -/
def formatValue : Value → String
  | .vStr s => s
  | .vNum n => toString n
  | .vBool b => if b then "true" else "false"
  | .vList xs => String.intercalate ", " (formatValueList xs)
  | .vObj fields => jsonIndent 0 (.vObj fields)
  | .vNull => "null"

/-- Format each element of an array (`value.map(item => this.formatValue(item))`). -/
def formatValueList : List Value → List String
  | [] => []
  | x :: xs => formatValue x :: formatValueList xs
end

mutual
/-- Model of the JS `String(value)` coercion on a defined value. -/
def jsToStringV : Value → String
  | .vNull => "null"
  | .vStr s => s
  | .vNum n => toString n
  | .vBool b => if b then "true" else "false"
  | .vList xs => String.intercalate "," (jsArrElems xs)
  | .vObj _ => "[object Object]"

/-- Elements of `Array.prototype.toString` (its `join(",")`): `null` renders
as the empty string inside an array. -/
def jsArrElems : List Value → List String
  | [] => []
  | .vNull :: xs => "" :: jsArrElems xs
  | x :: xs => jsToStringV x :: jsArrElems xs
end

/-- Model of `String(value)` where `value` may also be `undefined`. -/
def jsToString : Option Value → String
  | none => "undefined"
  | some v => jsToStringV v

/-- Model of `PromptConstructor.isTruthy`. -/
def isTruthy : Option Value → Bool
  | none => false
  | some .vNull => false
  | some (.vBool b) => b
  | some (.vNum n) => n != 0
  | some (.vStr s) => s.length > 0
  | some (.vList xs) => xs.length > 0
  | some (.vObj _) => true

/-- JS falsiness of a possibly-undefined value, as consulted by
`variables[name] || ''` (`undefined`, `null`, `false`, `0` and `''` are
falsy; objects and arrays are always truthy). -/
def jsFalsy : Option Value → Bool
  | none => true
  | some .vNull => true
  | some (.vBool b) => !b
  | some (.vNum n) => n == 0
  | some (.vStr s) => s == ""
  | some (.vList _) => false
  | some (.vObj _) => false

/-- The coercion `variables[name] || ''` used by `processSwitchStatements`. -/
def jsOrEmptyStr (o : Option Value) : Option Value :=
  if jsFalsy o then some (.vStr "") else o

/-! ## Regex matchers

Every interpolation directive is recognised by a concrete regular expression
in `PromptConstructor.ts`.  Each matcher below decides whether the regex
matches at the *start* of the given character list and, if so, returns the
captured groups together with the total length of the match.  Leftmost-match
`String.replace(..., 'g')` semantics are recovered by the scanner `scanWith`,
which tries successive start positions from the left and never rescans
replacement text. -/

/-- The opening token of a directive: `{{` followed by the keyword. -/
def dirPre (kw : String) : List Char := '{' :: '{' :: kw.data

/-- The closing token of a block directive: `{{/kw}}`. -/
def closeTag (kw : String) : List Char := '{' :: '{' :: '/' :: kw.data ++ ['}', '}']

/-- Index of the first occurrence of `tag` in the list, if any (the effect of
a lazy `(.*?)` followed by the literal `tag`). -/
def findTagIdx (tag : List Char) : List Char → Option Nat
  | [] => if tag.isEmpty then some 0 else none
  | c :: t => if tag.isPrefixOf (c :: t) then some 0 else (findTagIdx tag t).map (· + 1)

/-- The group captured by `\s+([^}]+)` once the engine has committed to the
maximal non-`}` run `R`: the greedy `\s+` eats the leading whitespace and the
group gets the remainder, except that when `R` is all whitespace the engine
backtracks one character so the group captures the last whitespace character.
Either way the code immediately applies `.trim()` to the capture. -/
def capturedGroup (R : List Char) : List Char :=
  let g := R.dropWhile isJsWs
  if g.isEmpty then R.drop (R.length - 1) else g

/-- Match `\{\{KW\s+([^}]+)\}\}` at the start of `cs` (with `KW` the literal
keyword, e.g. `#if`): returns the captured group and the matched length.
The run after the keyword must start with whitespace (for `\s+`) and contain
at least two characters (`\s+` and `[^}]+` both need one), and must be
followed immediately by `}}` (the greedy `[^}]+` extends to the first `}`;
shortening it cannot help since none of its characters is `}`). -/
def matchOpenAt (kw : List Char) (cs : List Char) : Option (List Char × Nat) :=
  let pre := '{' :: '{' :: kw
  if pre.isPrefixOf cs then
    let rest0 := cs.drop pre.length
    let R := rest0.takeWhile (· != '}')
    match R with
    | [] => none
    | c0 :: rtl =>
      if isJsWs c0 && !rtl.isEmpty then
        match rest0.drop R.length with
        | '}' :: '}' :: _ => some (capturedGroup R, pre.length + R.length + 2)
        | _ => none
      else none
  else none

/-- Match a full block directive `\{\{KW\s+([^}]+)\}\}(.*?)\{\{\/kw\}\}` at
the start of `cs`: open tag, then the lazy body running to the first
occurrence of the closing tag.  Returns `((condition, body), length)`. -/
def matchBlockAt (kw : List Char) (close : List Char) (cs : List Char) :
    Option ((List Char × List Char) × Nat) :=
  match matchOpenAt kw cs with
  | none => none
  | some (cond, k) =>
    let body0 := cs.drop k
    match findTagIdx close body0 with
    | none => none
    | some i => some ((cond, body0.take i), k + i + close.length)

/-- Match `\{\{([^}]+)\}\}` (simple substitution) at the start of `cs`:
returns the raw captured name and the matched length. -/
def matchSimpleAt : List Char → Option (List Char × Nat)
  | '{' :: '{' :: rest =>
    let R := rest.takeWhile (· != '}')
    if R.isEmpty then none
    else
      match rest.drop R.length with
      | '}' :: '}' :: _ => some (R, R.length + 4)
      | _ => none
  | _ => none

/-- Match `\s+"([^"]+)"\}\}`: at least one whitespace character, a quoted
non-empty literal, then `}}`.  The greedy `\s+` is deterministic here because
shortening it would leave a whitespace character where the literal `"` is
required.  Returns the quoted literal and the consumed length. -/
def matchEqTail (afterG : List Char) : Option (List Char × Nat) :=
  let w2 := afterG.takeWhile isJsWs
  if w2.isEmpty then none
  else
    match afterG.drop w2.length with
    | '"' :: s2 =>
      let lit := s2.takeWhile (· != '"')
      if lit.isEmpty then none
      else
        match s2.drop lit.length with
        | '"' :: '}' :: '}' :: _ => some (lit, w2.length + 1 + lit.length + 1 + 2)
        | _ => none
    | _ => none

/-- Match the head `\{\{#if_equals\s+([^}]+?)\s+"([^"]+)"\}\}` at the start
of `cs`.  The backtracking order of the JS engine is: greedy `\s+` tries the
longest whitespace run first, and for each choice the lazy `([^}]+?)` grows
from one character up; the remainder (`\s+"([^"]+)"\}\}`) is deterministic.
Returns `((name, literal), length)` for the first successful split. -/
def matchIfEqualsHead (cs : List Char) : Option ((List Char × List Char) × Nat) :=
  let pre := dirPre "#if_equals"
  if pre.isPrefixOf cs then
    let S := cs.drop pre.length
    let maxW := (S.takeWhile isJsWs).length
    ((List.range maxW).map (fun j => maxW - j)).findSome? (fun w1 =>
      let S1 := S.drop w1
      let gmax := (S1.takeWhile (· != '}')).length
      ((List.range gmax).map (· + 1)).findSome? (fun glen =>
        match matchEqTail (S1.drop glen) with
        | none => none
        | some (lit, tl) => some ((S1.take glen, lit), pre.length + w1 + glen + tl)))
  else none

/-- Match the full `\{\{#if_equals\s+([^}]+?)\s+"([^"]+)"\}\}(.*?)\{\{\/if_equals\}\}`
at the start of `cs`: returns `((name, literal, body), length)`. -/
def matchIfEqualsAt (cs : List Char) : Option ((List Char × List Char × List Char) × Nat) :=
  match matchIfEqualsHead cs with
  | none => none
  | some ((g, lit), k) =>
    let body0 := cs.drop k
    match findTagIdx (closeTag "if_equals") body0 with
    | none => none
    | some i => some ((g, lit, body0.take i), k + i + (closeTag "if_equals").length)

/-- Match `\{\{#case\s+"([^"]+)"\}\}(.*?)\{\{\/case\}\}` at the start of
`cs`: returns `((literal, body), length)`. -/
def matchCaseAt (cs : List Char) : Option ((List Char × List Char) × Nat) :=
  let pre := dirPre "#case"
  if pre.isPrefixOf cs then
    match matchEqTail (cs.drop pre.length) with
    | none => none
    | some (lit, k) =>
      let body0 := cs.drop (pre.length + k)
      match findTagIdx (closeTag "case") body0 with
      | none => none
      | some i => some ((lit, body0.take i), pre.length + k + i + (closeTag "case").length)
  else none

/-! ## The replace scanner -/

/-- The worker of `scanWith`, structurally recursive on a fuel bound: scan
left to right; at a match, emit the callback's output (never rescanned) and
continue after the match; otherwise emit one character and move on.  One
unit of fuel is spent per step; since every successful match consumes at
least one character (`n.max 1`, and every real match is several characters
long), a fuel of `length + 1` is never exhausted, so the `(0, cs)` equation
is dead code on every actual call.  The second component accumulates the
warning diagnostics the callbacks emit via `logger.warn`. -/
def scanWithF {α : Type} (m : List Char → Option (α × Nat))
    (handler : α → List Char × List String) : Nat → List Char → List Char × List String
  | _, [] => ([], [])
  | 0, cs => (cs, [])
  | f + 1, c :: t =>
    match m (c :: t) with
    | some (caps, n) =>
      let out := handler caps
      let r := scanWithF m handler f ((c :: t).drop (n.max 1))
      (out.1 ++ r.1, out.2 ++ r.2)
    | none =>
      let r := scanWithF m handler f t
      (c :: r.1, r.2)

/-- Model of `content.replace(regex, cb)` with a global regex. -/
def scanWith {α : Type} (m : List Char → Option (α × Nat))
    (handler : α → List Char × List String) (cs : List Char) : List Char × List String :=
  scanWithF m handler (cs.length + 1) cs

/-- The worker of `findCases`, with the same fuel discipline as `scanWithF`. -/
def findCasesF : Nat → List Char → List (List Char × List Char)
  | _, [] => []
  | 0, _ => []
  | f + 1, c :: t =>
    match matchCaseAt (c :: t) with
    | some ((lit, body), n) => (lit, body) :: findCasesF f ((c :: t).drop (n.max 1))
    | none => findCasesF f t

/-- Collect the successive matches of the `#case` regex inside the body of a
switch (the `while ((caseMatch = caseRegex.exec(switchContent)) !== null)`
loop): each match yields its literal and body, and scanning resumes after
the match. -/
def findCases (cs : List Char) : List (List Char × List Char) :=
  findCasesF (cs.length + 1) cs

/-! ## Interpolation stages

Each stage mirrors one private method of `PromptConstructor`.  The recursive
re-entry into the full pipeline (`this.interpolateVariables(inner, ...)`) is
passed in as the callback `interp`, and the pipeline driver
`interpolateVariables` ties the knot with a fuel parameter: the JS original
genuinely diverges (stack overflow) on self-reproducing inputs, which the
embedding renders as returning the text unchanged once the fuel is spent. -/

/-- Warning logged for an unresolved simple substitution. -/
def undefinedWarn (name : String) : String :=
  "Variable \x27" ++ name ++ "\x27 is undefined during interpolation"

/-- Warning logged for a non-array `#each` target. -/
def notArrayWarn (name : String) : String :=
  "Variable \x27" ++ name ++ "\x27 is not an array for #each loop"

/-- The callback of the simple-substitution `replace`: an undefined or null
variable keeps the original `{{name}}` token and logs a warning, anything
else is formatted. -/
def substHandler (vars : Ctx) (raw : List Char) : List Char × List String :=
  let name := strOfTrim raw
  match lookupVar vars name with
  | none => ('{' :: '{' :: raw ++ ['}', '}'], [undefinedWarn name])
  | some .vNull => ('{' :: '{' :: raw ++ ['}', '}'], [undefinedWarn name])
  | some v => ((formatValue v).data, [])

/-- Stage 1 of `interpolateVariables`: the simple `{{variable}}` replace. -/
def substSimple (vars : Ctx) (cs : List Char) : List Char × List String :=
  scanWith matchSimpleAt (substHandler vars) cs

/-- Model of `processConditionals`: `{{#if v}}body{{/if}}` keeps and
recursively interpolates the body iff the variable is truthy. -/
def processConditionals (interp : List Char → List Char × List String)
    (vars : Ctx) (cs : List Char) : List Char × List String :=
  scanWith (matchBlockAt "#if".data (closeTag "if"))
    (fun caps =>
      if isTruthy (lookupVar vars (strOfTrim caps.1)) then interp caps.2
      else ([], []))
    cs

/-- The per-iteration derived scope of a loop: the current element is bound
to `this`, plus `@index`, `@first` and `@last`, layered over the outer
variables (`{ ...variables, this: item, ... }`). -/
def iterCtx (vars : Ctx) (item : Value) (index : Nat) (len : Nat) : Ctx :=
  ("this", item) :: ("@index", .vNum (Int.ofNat index)) ::
    ("@first", .vBool (index == 0)) :: ("@last", .vBool (index == len - 1)) :: vars

/-- Model of `processLoops`: a non-array target drops the block with a
warning; an array interpolates the body once per element under the derived
scope and concatenates the results. -/
def processLoops (interp : Ctx → List Char → List Char × List String)
    (vars : Ctx) (cs : List Char) : List Char × List String :=
  scanWith (matchBlockAt "#each".data (closeTag "each"))
    (fun caps =>
      let name := strOfTrim caps.1
      match lookupVar vars name with
      | some (.vList arr) =>
        let results := arr.enum.map (fun p => interp (iterCtx vars p.2 p.1 arr.length) caps.2)
        ((results.map (·.1)).flatten, (results.map (·.2)).flatten)
      | _ => ([], [notArrayWarn name]))
    cs

/-- Model of `processEqualityConditionals`: the body is kept iff
`String(variables[name])` equals the quoted literal exactly. -/
def processEquality (interp : List Char → List Char × List String)
    (vars : Ctx) (cs : List Char) : List Char × List String :=
  scanWith matchIfEqualsAt
    (fun caps =>
      let name := strOfTrim caps.1
      if jsToString (lookupVar vars name) == String.mk caps.2.1 then interp caps.2.2
      else ([], []))
    cs

/-- The body of the switch `replace` callback: coerce the scrutinee with
`String(variables[name] || '')`, scan the cases in document order, and
expand the first case whose literal equals the coerced value; no match
expands to empty text. -/
def switchHandler (interp : List Char → List Char × List String)
    (vars : Ctx) (rawName : List Char) (switchContent : List Char) :
    List Char × List String :=
  let name := strOfTrim rawName
  let value := jsToString (jsOrEmptyStr (lookupVar vars name))
  match (findCases switchContent).find? (fun p => String.mk p.1 == value) with
  | some p => interp p.2
  | none => ([], [])

/-- Model of `processSwitchStatements`. -/
def processSwitch (interp : List Char → List Char × List String)
    (vars : Ctx) (cs : List Char) : List Char × List String :=
  scanWith (matchBlockAt "#switch".data (closeTag "switch"))
    (fun caps => switchHandler interp vars caps.1 caps.2)
    cs

/-- Model of `PromptConstructor.interpolateVariables`: the five stages run in
the code's order — simple substitution first, then conditionals, loops,
equality conditionals and switch — each scanning the entire remaining text
before the next stage runs; directive bodies re-enter the full pipeline with
one unit of fuel consumed. -/
def interpolateVariables : Nat → Ctx → List Char → List Char × List String
  | 0, _, content => (content, [])
  | n + 1, vars, content =>
    let p1 := substSimple vars content
    let p2 := processConditionals (fun inner => interpolateVariables n vars inner) vars p1.1
    let p3 := processLoops (fun c inner => interpolateVariables n c inner) vars p2.1
    let p4 := processEquality (fun inner => interpolateVariables n vars inner) vars p3.1
    let p5 := processSwitch (fun inner => interpolateVariables n vars inner) vars p4.1
    (p5.1, p1.2 ++ p2.2 ++ p3.2 ++ p4.2 ++ p5.2)

/-- String-level wrapper for `interpolateVariables`. -/
def interpolateStr (fuel : Nat) (vars : Ctx) (content : String) : String × List String :=
  let r := interpolateVariables fuel vars content.data
  (String.mk r.1, r.2)

/-- Modelled from the spec paragraph of claim C1, for comparison with the
code: the hypothetical pipeline that runs the stages in the order the claim
states — conditionals, loops, equality conditionals, switch, and simple
substitution last. -/
def specOrderInterpolate : Nat → Ctx → List Char → List Char × List String
  | 0, _, content => (content, [])
  | n + 1, vars, content =>
    let p1 := processConditionals (fun inner => specOrderInterpolate n vars inner) vars content
    let p2 := processLoops (fun c inner => specOrderInterpolate n c inner) vars p1.1
    let p3 := processEquality (fun inner => specOrderInterpolate n vars inner) vars p2.1
    let p4 := processSwitch (fun inner => specOrderInterpolate n vars inner) vars p3.1
    let p5 := substSimple vars p4.1
    (p5.1, p1.2 ++ p2.2 ++ p3.2 ++ p4.2 ++ p5.2)

/-- String-level wrapper for `specOrderInterpolate`. -/
def specOrderInterpolateStr (fuel : Nat) (vars : Ctx) (content : String) :
    String × List String :=
  let r := specOrderInterpolate fuel vars content.data
  (String.mk r.1, r.2)

/-! ## Data model (`PromptTypes.ts`)

TypeScript optional properties (`field?: T`) are modelled as
`Option (Option T)`: `none` is an absent key, `some none` is a key present
with the value `undefined` (which `parseXmlContent` produces for every
missing optional section, since it assigns the possibly-undefined parse
result unconditionally), and `some (some v)` is a defined value.  The
distinction is observable: object spread `{ ...parent, ...child }` copies a
present-but-undefined key over the parent's value, while an absent key
leaves the parent's value in place. -/

/-- A TS optional property: absent, present-but-undefined, or defined. -/
abbrev JOpt (α : Type) := Option (Option α)

/-- A defined optional property value. -/
def jval {α : Type} (a : α) : JOpt α := some (some a)

/-- A present-but-undefined optional property. -/
def jundef {α : Type} : JOpt α := some none

/-- Object-spread semantics for one optional property of
`{ ...parent, ...child }`: the child's key wins whenever it is present
(defined or undefined); an absent child key keeps the parent's. -/
def spreadField {α : Type} (p c : JOpt α) : JOpt α :=
  match c with
  | none => p
  | some v => some v

/-- The JS `x || d` defaulting used for arrays/objects
(`parent.variables || []`, `template.metadata || {}`): arrays and objects
are always truthy, so only undefined/absent fall back to the default. -/
def jGetD {α : Type} (o : JOpt α) (d : α) : α :=
  match o with
  | some (some a) => a
  | _ => d

/-- Truthiness of an optional string property (`template.extends`): defined
and non-empty. -/
def jStrTruthy (o : JOpt String) : Bool :=
  match o with
  | some (some s) => s != ""
  | _ => false

/-- The string value of `template.extends || ''`. -/
def jStrOr (o : JOpt String) : String :=
  match o with
  | some (some s) => s
  | _ => ""

/-- `IVariable`: a declared template variable. -/
structure Variable where
  name : String
  type : String
  required : Option Bool
  defaultValue : Option Value
  description : Option String

/-- `ICondition` (recursive guard conditions of context levels). -/
inductive Condition where
  | mk (ctype : String) (cvar : Option String) (value : Option Value)
       (conditions : Option (List Condition))

/-- `IContextLevel`. -/
structure ContextLevel where
  depth : Int
  condition : Option Condition
  load : List String
  purpose : Option String

/-- `IContextLoading`. -/
structure ContextLoading where
  strategy : String
  levels : Option (List ContextLevel)

/-- `ITask` (a requirement of a task definition). -/
structure Task where
  id : String
  description : String
  priority : String
  dependencies : Option (List String)
  estimate : Option String

/-- `ITaskDefinition`. -/
structure TaskDefinition where
  objective : String
  requirements : List Task
  constraints : Option (List String)
  deliverables : Option (List String)

/-- `IThinkingLevel`. -/
structure ThinkingLevel where
  depth : String
  focus : Option String
  duration : Option String

/-- `IPromptTemplate`: `id`, `name` and `content` are required properties;
everything else is optional in the TS interface. -/
structure Template where
  id : String
  name : String
  description : JOpt String
  version : JOpt String
  author : JOpt String
  «extends» : JOpt String
  «variables» : JOpt (List Variable)
  contextLoading : JOpt ContextLoading
  taskDefinition : JOpt TaskDefinition
  thinkingLevel : JOpt ThinkingLevel
  content : String
  metadata : JOpt (List (String × Value))

/-- `ITemplateValidationError` (without the unused location field). -/
structure VError where
  etype : String
  message : String

/-- `ITemplateValidationResult`. -/
structure ValidationResult where
  valid : Bool
  errors : List VError
  warnings : List VError

/-! ## Context validation (`PromptConstructor.validateContext`) -/

/-- The `Array.isArray(value) ? 'array' : typeof value` computation
(JS `typeof null` is `'object'`). -/
def actualTypeOf : Value → String
  | .vList _ => "array"
  | .vNull => "object"
  | .vStr _ => "string"
  | .vNum _ => "number"
  | .vBool _ => "boolean"
  | .vObj _ => "object"

/-- The message of a declared-kind mismatch error. -/
def typeErrMsg (name expectedType actualType : String) : String :=
  "Variable \x27" ++ name ++ "\x27 expected type \x27" ++ expectedType ++
    "\x27 but got \x27" ++ actualType ++ "\x27"

/-- Model of `PromptConstructor.validateVariableType`: the special case
accepts a non-null non-array value of actual type `object` when the declared
type is `object`; otherwise any difference between actual and declared type
is an error naming the variable and both types. -/
def validateVariableType (name : String) (value : Value) (expectedType : String) :
    Option VError :=
  let actualType := actualTypeOf value
  if expectedType == "object" && actualType == "object" &&
      !(value matches .vNull) && !(value matches .vList _) then
    none
  else if actualType != expectedType then
    some ⟨"semantic", typeErrMsg name expectedType actualType⟩
  else
    none

/-- The missing-required-variable error. -/
def missingVarErr (name : String) : VError :=
  ⟨"missing_variable", "Required variable \x27" ++ name ++ "\x27 is missing"⟩

/-- The extra-context-key warning. -/
def extraVarWarn (name : String) : VError :=
  ⟨"semantic",
    "Variable \x27" ++ name ++ "\x27 is not defined in template but provided in context"⟩

/-- The error list produced by the per-declared-variable loop of
`validateContext`: a required variable that is undefined or null yields a
missing-variable error (and skips the type check); a present value is
type-checked. -/
def validateVarsErrors (tvars : List Variable) (ctxVars : Ctx) : List VError :=
  tvars.foldl (fun acc vr =>
    match lookupVar ctxVars vr.name with
    | none =>
      if vr.required.getD false then acc ++ [missingVarErr vr.name] else acc
    | some .vNull =>
      if vr.required.getD false then acc ++ [missingVarErr vr.name] else acc
    | some v => acc ++ (validateVariableType vr.name v vr.type).toList) []

/-- The warning list of `validateContext`: every context key not declared in
the template's variables is warned about. -/
def validateVarsWarnings (tvars : List Variable) (ctxVars : Ctx) : List VError :=
  ctxVars.foldl (fun acc p =>
    if tvars.any (fun v => v.name == p.1) then acc else acc ++ [extraVarWarn p.1]) []

/-- Model of `PromptConstructor.validateContext` (the success payload; the
surrounding try/catch never fires for these pure computations).  A template
without a defined `variables` property short-circuits to valid. -/
def validateContext (template : Template) (ctxVars : Ctx) : ValidationResult :=
  match template.«variables» with
  | some (some tvars) =>
    let errors := validateVarsErrors tvars ctxVars
    let warnings := validateVarsWarnings tvars ctxVars
    ⟨errors.isEmpty, errors, warnings⟩
  | _ => ⟨true, [], []⟩

/-! ## Template registry (`TemplateRegistry.ts`)

The two `Map` objects are modelled as insertion-ordered association lists
with JS `Map` semantics: `set` updates an existing key in place (keeping its
position) or appends, `delete` removes, iteration follows the list.  Every
fallible operation returns the `IResult`-style `RResult` carrying either the
value or the error message, and the state-mutating operations also return
the new registry state. -/

/-- The success/failure result of a registry operation (`IResult`). -/
inductive RResult (α : Type) where
  | ok (v : α)
  | err (msg : String)

/-- JS `Map.prototype.get`. -/
def mapGet {α : Type} (m : List (String × α)) (k : String) : Option α :=
  (m.find? (fun p => p.1 == k)).map (·.2)

/-- JS `Map.prototype.has`. -/
def mapHas {α : Type} (m : List (String × α)) (k : String) : Bool :=
  (m.find? (fun p => p.1 == k)).isSome

/-- JS `Map.prototype.set`: update in place or append. -/
def mapSet {α : Type} (m : List (String × α)) (k : String) (v : α) : List (String × α) :=
  if mapHas m k then m.map (fun p => if p.1 == k then (k, v) else p)
  else m ++ [(k, v)]

/-- JS `Map.prototype.delete` (dropping the key). -/
def mapDelete {α : Type} (m : List (String × α)) (k : String) : List (String × α) :=
  m.filter (fun p => p.1 != k)

/-- Object-spread merge `{ ...a, ...b }` of two records with unique keys:
keys of `a` in order (with `b`'s value winning on a shared key), then the
keys only `b` has, in `b`'s order. -/
def recordMerge (a b : List (String × Value)) : List (String × Value) :=
  (a.map (fun p => ((p.1 : String), (mapGet b p.1).getD p.2))) ++
    b.filter (fun p => !(mapHas a p.1))

/-- The registry's owned state: the stored templates and the resolved-
inheritance cache. -/
structure RegistryState where
  templates : List (String × Template)
  inheritanceCache : List (String × Template)

/-- The empty registry a fresh `TemplateRegistry` starts with. -/
def emptyRegistry : RegistryState := ⟨[], []⟩

/-- Model of `findDependentTemplates`: the ids of stored templates whose
`extends` is strictly equal (`===`) to `parentId`. -/
def findDependentTemplates (tmpls : List (String × Template)) (parentId : String) :
    List String :=
  (tmpls.filter (fun p =>
    match p.2.«extends» with
    | some (some e) => e == parentId
    | _ => false)).map (·.1)

/-- Model of the `checkCircularInheritance` while-loop.  The loop walks
`extends` pointers from `parentId`; it terminates on every reachable
registry state because each step either stops or adds a previously unseen
stored id to `visited`, so `templates.length + 1` fuel (supplied by the
wrapper) is never exhausted on states whose stored chains are acyclic. -/
def checkCircularGo (tmpls : List (String × Template)) (templateId : String) :
    Nat → List String → String → RResult Unit
  | 0, _, _ => .err "inheritance chain exceeds registry size"
  | fuel + 1, visited, currentId =>
    if currentId == "" then .ok ()
    else if visited.contains currentId then
      .err ("Circular inheritance detected: " ++
        String.intercalate " -> " visited ++ " -> " ++ currentId)
    else if currentId == templateId then
      .err ("Template cannot inherit from itself: " ++ templateId)
    else
      match mapGet tmpls currentId with
      | none => .err ("Parent template not found: " ++ currentId)
      | some t => checkCircularGo tmpls templateId fuel (visited ++ [currentId]) (jStrOr t.«extends»)

/-- Model of `checkCircularInheritance`. -/
def checkCircularInheritance (s : RegistryState) (templateId parentId : String) :
    RResult Unit :=
  checkCircularGo s.templates templateId (s.templates.length + 1) [] parentId

/-- Model of the recursive `clearInheritanceCache`: drop the entry for
`templateId`, then recursively clear every stored dependent.  The recursion
depth is bounded by the stored-template count on every reachable (acyclic)
state, so the wrapper's `templates.length + 1` fuel never runs out there. -/
def clearInheritanceCacheGo (tmpls : List (String × Template)) :
    Nat → List (String × Template) → String → List (String × Template)
  | 0, cache, _ => cache
  | fuel + 1, cache, templateId =>
    let cache := mapDelete cache templateId
    (findDependentTemplates tmpls templateId).foldl
      (fun c dep => clearInheritanceCacheGo tmpls fuel c dep) cache

/-- Cache invalidation for `templateId` and (transitively) its dependents. -/
def clearInheritanceCache (s : RegistryState) (templateId : String) : RegistryState :=
  { s with inheritanceCache :=
      clearInheritanceCacheGo s.templates (s.templates.length + 1) s.inheritanceCache templateId }

/-- Model of `TemplateRegistry.register`: reject a missing id, name or
content; for a truthy `extends`, run the circular-inheritance check; on
success store (overwrite) the template and invalidate the caches.  A failed
registration returns the state unchanged. -/
def register (s : RegistryState) (template : Template) : RResult Unit × RegistryState :=
  if template.id == "" then (.err "Template ID is required", s)
  else if template.name == "" then (.err "Template name is required", s)
  else if template.content == "" then (.err "Template content is required", s)
  else
    let proceed :=
      if jStrTruthy template.«extends» then
        checkCircularInheritance s template.id (jStrOr template.«extends»)
      else .ok ()
    match proceed with
    | .err e => (.err e, s)
    | .ok _ =>
      let s1 : RegistryState :=
        { s with templates := mapSet s.templates template.id template }
      (.ok (), clearInheritanceCache s1 template.id)

/-- Model of `TemplateRegistry.get` (returns a shallow copy, which is
immaterial here). -/
def getTemplate (s : RegistryState) (id : String) : RResult Template :=
  match mapGet s.templates id with
  | none => .err ("Template not found: " ++ id)
  | some t => .ok t

/-- Model of `TemplateRegistry.list`: all stored templates, insertion order. -/
def listTemplates (s : RegistryState) : RResult (List Template) :=
  .ok (s.templates.map (·.2))

/-- The searchable text of a template: name, description (or empty), id and
`JSON.stringify(metadata || {})`, joined by spaces and lowercased. -/
def searchableText (t : Template) : String :=
  strToLower (String.intercalate " "
    [t.name, jGetD t.description "", t.id, jsonCompact (.vObj (jGetD t.metadata []))])

/-- Model of `TemplateRegistry.search`: case-insensitive substring match of
the query against the searchable text, insertion-stable order. -/
def search (s : RegistryState) (query : String) : RResult (List Template) :=
  let lowerQuery := strToLower query
  .ok (((s.templates.filter
    (fun p => containsSub (searchableText p.2).data lowerQuery.data)).map (·.2)))

/-- Model of `TemplateRegistry.remove`: unknown ids fail; a template that
others currently extend fails, naming the blocking dependents; otherwise the
template is deleted and the caches invalidated.  Failures leave the state
unchanged. -/
def removeTemplate (s : RegistryState) (id : String) : RResult Unit × RegistryState :=
  if !(mapHas s.templates id) then (.err ("Template not found: " ++ id), s)
  else
    let dependents := findDependentTemplates s.templates id
    if dependents.length > 0 then
      (.err ("Cannot remove template " ++ id ++ ": other templates inherit from it: " ++
        String.intercalate ", " dependents), s)
    else
      let s1 : RegistryState := { s with templates := mapDelete s.templates id }
      (.ok (), clearInheritanceCache s1 id)

/-- Model of `TemplateRegistry.exists`. -/
def existsTemplate (s : RegistryState) (id : String) : Bool :=
  mapHas s.templates id

/-- Model of `mergeTemplates`: the object literal `{ ...parent, ...child }`
overlaid with concatenated variables and shallow-merged metadata, then the
four guarded reassignments, then `delete merged.extends`.  The required
properties `id`, `name` and `content` are always present on the child, so
the spread takes the child's; each optional property follows `spreadField`. -/
def mergeTemplates (parent child : Template) : Template :=
  let merged : Template :=
    { id := child.id
      name := child.name
      description := spreadField parent.description child.description
      version := spreadField parent.version child.version
      author := spreadField parent.author child.author
      «extends» := spreadField parent.«extends» child.«extends»
      «variables» := jval (jGetD parent.«variables» [] ++ jGetD child.«variables» [])
      contextLoading := spreadField parent.contextLoading child.contextLoading
      taskDefinition := spreadField parent.taskDefinition child.taskDefinition
      thinkingLevel := spreadField parent.thinkingLevel child.thinkingLevel
      content := child.content
      metadata := jval (recordMerge (jGetD parent.metadata []) (jGetD child.metadata [])) }
  let merged := if child.content != "" then { merged with content := child.content } else merged
  let merged :=
    match child.contextLoading with
    | some (some cl) => { merged with contextLoading := some (some cl) }
    | _ => merged
  let merged :=
    match child.taskDefinition with
    | some (some td) => { merged with taskDefinition := some (some td) }
    | _ => merged
  let merged :=
    match child.thinkingLevel with
    | some (some tl) => { merged with thinkingLevel := some (some tl) }
    | _ => merged
  { merged with «extends» := none }

/-- Model of `getResolved`, with the recursion on the inheritance chain made
explicit through fuel (the wrapper supplies `templates.length + 1`, enough
for every acyclic chain; the JS original overflows the stack on a cyclic
chain, which like fuel exhaustion surfaces as a failure).  The resolved
template is cached on success; failures cache nothing. -/
def getResolvedGo : Nat → RegistryState → String → RResult Template × RegistryState
  | 0, s, _ => (.err "Maximum call stack size exceeded", s)
  | fuel + 1, s, id =>
    match mapGet s.inheritanceCache id with
    | some cached => (.ok cached, s)
    | none =>
      match mapGet s.templates id with
      | none => (.err ("Template not found: " ++ id), s)
      | some base =>
        if jStrTruthy base.«extends» then
          let parentId := jStrOr base.«extends»
          match getResolvedGo fuel s parentId with
          | (.err e, s1) =>
            (.err ("Failed to resolve parent template \x27" ++ parentId ++
              "\x27 for template \x27" ++ id ++ "\x27: " ++ e), s1)
          | (.ok parent, s1) =>
            let merged := mergeTemplates parent base
            (.ok merged,
              { s1 with inheritanceCache := mapSet s1.inheritanceCache id merged })
        else
          (.ok base, { s with inheritanceCache := mapSet s.inheritanceCache id base })

/-- Model of `TemplateRegistry.getResolved`. -/
def getResolved (s : RegistryState) (id : String) : RResult Template × RegistryState :=
  getResolvedGo (s.templates.length + 1) s id

/-! ## Scanner and matcher lemmas -/

theorem scanWithF_id {α : Type} (m : List Char → Option (α × Nat))
    (h : α → List Char × List String) (f : Nat) (cs : List Char)
    (H : ∀ i, m (cs.drop i) = none) : scanWithF m h f cs = (cs, []) := by
  induction f generalizing cs with
  | zero => cases cs <;> rfl
  | succ f ih =>
    cases cs with
    | nil => rfl
    | cons c t =>
      have h0 : m (c :: t) = none := H 0
      rw [scanWithF, h0]
      have ht : scanWithF m h f t = (t, []) := ih t (fun i => H (i + 1))
      simp [ht]

theorem scanWith_id {α : Type} (m : List Char → Option (α × Nat))
    (h : α → List Char × List String) (cs : List Char)
    (H : ∀ i, m (cs.drop i) = none) : scanWith m h cs = (cs, []) :=
  scanWithF_id m h _ cs H

theorem isPrefixOf_eq_false_of_not_mem {c : Char} {pre ds : List Char}
    (hc : c ∈ pre) (hds : c ∉ ds) : pre.isPrefixOf ds = false := by
  cases hp : pre.isPrefixOf ds with
  | false => rfl
  | true =>
    exact absurd (((List.isPrefixOf_iff_prefix).mp hp).subset hc) hds

theorem matchSimpleAt_none {ds : List Char} (hds : '{' ∉ ds) :
    matchSimpleAt ds = none := by
  cases ds with
  | nil => rfl
  | cons c t =>
    have hc : c ≠ '{' := fun e => hds (e ▸ List.mem_cons_self c t)
    unfold matchSimpleAt
    split
    · rename_i heq
      exact absurd rfl (by injection heq with h1 _; exact h1 ▸ hc)
    · rfl

theorem matchOpenAt_none {c : Char} {kw ds : List Char}
    (hcm : c ∈ '{' :: '{' :: kw) (hds : c ∉ ds) : matchOpenAt kw ds = none := by
  simp [matchOpenAt, isPrefixOf_eq_false_of_not_mem hcm hds]

theorem matchBlockAt_none {c : Char} {kw close ds : List Char}
    (hcm : c ∈ '{' :: '{' :: kw) (hds : c ∉ ds) : matchBlockAt kw close ds = none := by
  unfold matchBlockAt
  rw [matchOpenAt_none hcm hds]

theorem matchIfEqualsAt_none {c : Char} {ds : List Char}
    (hcm : c ∈ dirPre "#if_equals") (hds : c ∉ ds) : matchIfEqualsAt ds = none := by
  simp [matchIfEqualsAt, matchIfEqualsHead, isPrefixOf_eq_false_of_not_mem hcm hds]

theorem matchCaseAt_none {c : Char} {ds : List Char}
    (hcm : c ∈ dirPre "#case") (hds : c ∉ ds) : matchCaseAt ds = none := by
  simp [matchCaseAt, isPrefixOf_eq_false_of_not_mem hcm hds]

/-- A character of the opening token that is absent from the text makes each
directive stage the identity (no match anywhere, no warnings). -/
theorem substSimple_id {vars : Ctx} {cs : List Char} (h : '{' ∉ cs) :
    substSimple vars cs = (cs, []) :=
  scanWith_id _ _ cs (fun _ => matchSimpleAt_none (fun hm => h (List.mem_of_mem_drop hm)))

theorem processConditionals_id {c : Char} {interp} {vars : Ctx} {cs : List Char}
    (hcm : c ∈ '{' :: '{' :: "#if".data) (h : c ∉ cs) :
    processConditionals interp vars cs = (cs, []) :=
  scanWith_id _ _ cs (fun _ => matchBlockAt_none hcm (fun hm => h (List.mem_of_mem_drop hm)))

theorem processLoops_id {c : Char} {interp} {vars : Ctx} {cs : List Char}
    (hcm : c ∈ '{' :: '{' :: "#each".data) (h : c ∉ cs) :
    processLoops interp vars cs = (cs, []) :=
  scanWith_id _ _ cs (fun _ => matchBlockAt_none hcm (fun hm => h (List.mem_of_mem_drop hm)))

theorem processEquality_id {c : Char} {interp} {vars : Ctx} {cs : List Char}
    (hcm : c ∈ dirPre "#if_equals") (h : c ∉ cs) :
    processEquality interp vars cs = (cs, []) :=
  scanWith_id _ _ cs (fun _ => matchIfEqualsAt_none hcm (fun hm => h (List.mem_of_mem_drop hm)))

theorem processSwitch_id {c : Char} {interp} {vars : Ctx} {cs : List Char}
    (hcm : c ∈ '{' :: '{' :: "#switch".data) (h : c ∉ cs) :
    processSwitch interp vars cs = (cs, []) :=
  scanWith_id _ _ cs (fun _ => matchBlockAt_none hcm (fun hm => h (List.mem_of_mem_drop hm)))

/-- On text without any `{` the whole pipeline is the identity. -/
theorem interpolateVariables_id {fuel : Nat} {vars : Ctx} {cs : List Char}
    (h : '{' ∉ cs) : interpolateVariables fuel vars cs = (cs, []) := by
  cases fuel with
  | zero => rfl
  | succ n =>
    rw [interpolateVariables]
    rw [substSimple_id h]
    rw [processConditionals_id (List.mem_cons_self _ _) h]
    rw [processLoops_id (List.mem_cons_self _ _) h]
    rw [processEquality_id (List.mem_cons_self _ _) h]
    rw [processSwitch_id (List.mem_cons_self _ _) h]
    simp

/-! ## Claim C1: stage order of `interpolateVariables` -/

/-- A context whose variable `x` maps to text that is itself an `#if`
directive.  The stage order is observable on it: only a substitution pass
running *before* the conditional pass lets the injected directive be
expanded by the later stages. -/
def c1Ctx : Ctx :=
  [("x", .vStr "\x7b\x7b#if b\x7d\x7dY\x7b\x7b/if\x7d\x7d"), ("b", .vBool true)]

/-- The body consisting of a single simple reference to `x`. -/
def c1Body : String := "\x7b\x7bx\x7d\x7d"

/-- Claim C1 is false on the code: on `c1Body` with `c1Ctx`, the code
(which substitutes first) expands the injected conditional and returns
`"Y"`, while the claimed stage order (conditionals, loops, equality,
switch first, and simple substitution last) would return the substituted
directive text verbatim.  So the two orders disagree at this input. -/
theorem interpolate_stage_order_counterexample :
    (interpolateStr 9 c1Ctx c1Body).1 = "Y" ∧
    (specOrderInterpolateStr 9 c1Ctx c1Body).1 =
      "\x7b\x7b#if b\x7d\x7dY\x7b\x7b/if\x7d\x7d" ∧
    (interpolateStr 9 c1Ctx c1Body).1 ≠ (specOrderInterpolateStr 9 c1Ctx c1Body).1 :=
  ⟨by decide, by decide, by decide⟩

/-- Claim C1 (amended): for every body and context, `interpolateVariables`
applies its stages in the order: simple substitution `\x7b\x7bNAME\x7d\x7d`
*first*, then conditionals (`#if`), then loops (`#each`), then equality
conditionals (`#if_equals`), then switch (`#switch`) last, each stage
scanning the entire remaining text before the next stage runs — and this
order is observably different from the claimed substitution-last order. -/
theorem interpolate_stage_order :
    (∀ (n : Nat) (vars : Ctx) (content : List Char),
      (interpolateVariables (n + 1) vars content).1 =
        (processSwitch (fun inner => interpolateVariables n vars inner) vars
          (processEquality (fun inner => interpolateVariables n vars inner) vars
            (processLoops (fun c inner => interpolateVariables n c inner) vars
              (processConditionals (fun inner => interpolateVariables n vars inner) vars
                (substSimple vars content).1).1).1).1).1) ∧
    (interpolateStr 9 c1Ctx c1Body).1 ≠ (specOrderInterpolateStr 9 c1Ctx c1Body).1 :=
  ⟨fun _ _ _ => rfl, by decide⟩

/-! ## Claim C9: falsy switch scrutinees -/

theorem matchEqTail_lit_ne_nil {x lit : List Char} {k : Nat}
    (h : matchEqTail x = some (lit, k)) : lit ≠ [] := by
  unfold matchEqTail at h
  dsimp only at h
  split at h
  · exact absurd h (by simp)
  · split at h
    · rename_i s2 _
      split at h
      · exact absurd h (by simp)
      · split at h
        · rename_i hne _ _ _
          injection h with h1
          injection h1 with h2 _
          exact h2 ▸ (by simpa using hne)
        · exact absurd h (by simp)
    · exact absurd h (by simp)

theorem matchCaseAt_lit_ne_nil {cs lit body : List Char} {n : Nat}
    (h : matchCaseAt cs = some ((lit, body), n)) : lit ≠ [] := by
  unfold matchCaseAt at h
  dsimp only at h
  split at h
  · split at h
    · exact absurd h (by simp)
    · rename_i heq
      split at h
      · exact absurd h (by simp)
      · injection h with h1
        injection h1 with h2 _
        injection h2 with h3 _
        exact h3 ▸ matchEqTail_lit_ne_nil heq
  · exact absurd h (by simp)

theorem findCasesF_lit_ne_nil {f : Nat} {cs : List Char} {p : List Char × List Char}
    (hp : p ∈ findCasesF f cs) : p.1 ≠ [] := by
  induction f generalizing cs with
  | zero => cases cs <;> simp [findCasesF] at hp
  | succ f ih =>
    cases cs with
    | nil => simp [findCasesF] at hp
    | cons c t =>
      rw [findCasesF] at hp
      split at hp
      · rename_i lit body n heq
        rcases List.mem_cons.mp hp with h1 | h2
        · exact h1 ▸ matchCaseAt_lit_ne_nil heq
        · exact ih h2
      · exact ih hp

theorem findCases_lit_ne_nil {cs : List Char} {p : List Char × List Char}
    (hp : p ∈ findCases cs) : p.1 ≠ [] :=
  findCasesF_lit_ne_nil hp

/-- Claim C9: a `#switch` whose scrutinee variable is falsy (`undefined`,
`null`, `false`, `0` or the empty string) expands to empty text regardless
of the cases — the `String(variables[name] || '')` coercion turns the
scrutinee into the empty string, and every `#case` literal is non-empty by
the `([^"]+)` pattern, so no case can match. -/
theorem switch_falsy_empty (interp : List Char → List Char × List String)
    (vars : Ctx) (rawName switchContent : List Char)
    (h : jsFalsy (lookupVar vars (strOfTrim rawName)) = true) :
    switchHandler interp vars rawName switchContent = ([], []) := by
  unfold switchHandler
  dsimp only
  have hval : jsToString (jsOrEmptyStr (lookupVar vars (strOfTrim rawName))) = "" := by
    simp [jsOrEmptyStr, h, jsToString, jsToStringV]
  rw [hval]
  have hnone : (findCases switchContent).find? (fun p => String.mk p.1 == "") = none := by
    rw [List.find?_eq_none]
    intro p hp
    simp only [beq_iff_eq]
    intro hcontra
    exact findCases_lit_ne_nil hp (congrArg String.data hcontra)
  rw [hnone]

/-- Claim C9 witness: with `level = 0`, a switch carrying a case whose
literal `"0"` equals the string form of the value still expands to empty. -/
theorem switch_falsy_empty_witness :
    switchHandler (fun c => (c, [])) [("level", Value.vNum 0)] "level".data
      "\x7b\x7b#case \"0\"\x7d\x7dZERO\x7b\x7b/case\x7d\x7d".data = ([], []) :=
  switch_falsy_empty _ _ _ _ (by decide)


/-! ## Claim C2: inheritance merge of the optional sections -/

def c2CL : ContextLoading := ⟨"progressive", some []⟩

def c2TD : TaskDefinition := ⟨"analyse the module", [], none, none⟩

def c2TL : ThinkingLevel := ⟨"analysis", none, none⟩

/-- A resolved parent template carrying all three optional sections. -/
def c2Parent : Template :=
  { id := "base", name := "Base", description := none, version := none,
    author := none, «extends» := none, «variables» := none,
    contextLoading := jval c2CL, taskDefinition := jval c2TD,
    thinkingLevel := jval c2TL, content := "parent body", metadata := none }

/-- A raw child as `parseXmlContent` produces it when the child document has
none of the three sections: the parser assigns
`template.contextLoading = this.parseContextLoading(content)` (and likewise
for the task definition and thinking level) unconditionally, so a missing
section yields a property that is *present but undefined*. -/
def c2Child : Template :=
  { id := "child", name := "Child", description := jundef, version := none,
    author := none, «extends» := jval "base", «variables» := jval [],
    contextLoading := jundef, taskDefinition := jundef,
    thinkingLevel := jundef, content := "child body", metadata := none }

/-- Claim C2 is false on the code: merging `c2Parent` with the
parser-shaped child `c2Child` — a child that defines none of
`contextLoading`, `taskDefinition`, `thinkingLevel` — does *not* keep the
parent's values.  The `{ ...parent, ...child }` spread copies the child's
present-but-undefined properties over the parent's, and the
`if (child.contextLoading)` guards cannot restore them, so all three merged
fields are undefined. -/
theorem merge_sections_counterexample :
    (mergeTemplates c2Parent c2Child).contextLoading = jundef ∧
    (mergeTemplates c2Parent c2Child).taskDefinition = jundef ∧
    (mergeTemplates c2Parent c2Child).thinkingLevel = jundef ∧
    c2Parent.contextLoading = jval c2CL ∧
    c2Parent.taskDefinition = jval c2TD ∧
    c2Parent.thinkingLevel = jval c2TL ∧
    (jundef : JOpt ContextLoading) ≠ jval c2CL ∧
    (jundef : JOpt TaskDefinition) ≠ jval c2TD ∧
    (jundef : JOpt ThinkingLevel) ≠ jval c2TL :=
  ⟨rfl, rfl, rfl, rfl, rfl, rfl,
    fun h => Option.noConfusion (Option.some.inj h),
    fun h => Option.noConfusion (Option.some.inj h),
    fun h => Option.noConfusion (Option.some.inj h)⟩

/-- Claim C2 (amended): for every resolved parent and raw child, each of the
merged `contextLoading`, `taskDefinition` and `thinkingLevel` equals the
child's value when the child defines one; the parent's value is kept only
when the child's property is entirely absent; and a child property that is
present but undefined (the shape `parseXmlContent` produces for a missing
section) makes the merged property undefined, losing the parent's value. -/
theorem mergeTemplates_sections (parent child : Template) :
    ((mergeTemplates parent child).contextLoading =
      match child.contextLoading with
      | some (some cl) => some (some cl)
      | some none => some none
      | none => parent.contextLoading) ∧
    ((mergeTemplates parent child).taskDefinition =
      match child.taskDefinition with
      | some (some td) => some (some td)
      | some none => some none
      | none => parent.taskDefinition) ∧
    ((mergeTemplates parent child).thinkingLevel =
      match child.thinkingLevel with
      | some (some tl) => some (some tl)
      | some none => some none
      | none => parent.thinkingLevel) := by
  refine ⟨?_, ?_, ?_⟩ <;>
    (unfold mergeTemplates
     rcases hcl : child.contextLoading with _ | (_ | cl) <;>
       rcases htd : child.taskDefinition with _ | (_ | td) <;>
         rcases htl : child.thinkingLevel with _ | (_ | tl) <;>
           simp [hcl, htd, htl, spreadField, apply_ite Template.contextLoading,
             apply_ite Template.taskDefinition, apply_ite Template.thinkingLevel])

/-! ## Claim C3: declared-kind validation of context values -/

/-- The structural compatibility that `validateVariableType` actually
decides: for the declared type `object` only null and plain mappings pass
(arrays are typed `array` and rejected); for every other declared type the
computed actual type must equal it verbatim. -/
def typeMatches (expectedType : String) (v : Value) : Bool :=
  if expectedType == "object" then
    match v with
    | .vObj _ => true
    | .vNull => true
    | _ => false
  else actualTypeOf v == expectedType

theorem foldl_step_append {α β : Type} (f : List β → α → List β) (g : α → List β)
    (hf : ∀ acc x, f acc x = acc ++ g x) (l : List α) (init : List β) :
    l.foldl f init = init ++ l.flatMap g := by
  induction l generalizing init with
  | nil => simp
  | cons x xs ih => simp [hf, ih, List.append_assoc]

theorem containsSub_append_mid (a p b : List Char) :
    containsSub (a ++ p ++ b) p = true := by
  unfold containsSub
  rw [List.any_eq_true]
  refine ⟨a.length, List.mem_range.mpr ?_, ?_⟩
  · simp only [List.append_assoc, List.length_append]
    omega
  · rw [List.append_assoc, List.drop_left]
    exact (List.isPrefixOf_iff_prefix).mpr (List.prefix_append p b)

theorem validateVarsErrors_eq (tvars : List Variable) (ctxVars : Ctx) :
    validateVarsErrors tvars ctxVars = tvars.flatMap (fun vr =>
      match lookupVar ctxVars vr.name with
      | none => if vr.required.getD false then [missingVarErr vr.name] else []
      | some .vNull => if vr.required.getD false then [missingVarErr vr.name] else []
      | some v => (validateVariableType vr.name v vr.type).toList) := by
  unfold validateVarsErrors
  refine (foldl_step_append _
    (fun vr => match lookupVar ctxVars vr.name with
      | none => if vr.required.getD false then [missingVarErr vr.name] else []
      | some .vNull => if vr.required.getD false then [missingVarErr vr.name] else []
      | some v => (validateVariableType vr.name v vr.type).toList) ?_ tvars []).trans
    (List.nil_append _)
  intro acc vr
  split <;> (try split) <;> simp_all

/-- The concrete template of the C3 counterexample: one optional variable of
declared kind `object`. -/
def c3Template : Template :=
  { id := "t", name := "T", description := none, version := none,
    author := none, «extends» := none,
    «variables» := jval [⟨"v", "object", some false, none, none⟩],
    contextLoading := none, taskDefinition := none, thinkingLevel := none,
    content := "\x7b\x7bv\x7d\x7d", metadata := none }

/-- The C3 counterexample context: the declared-`object` variable is given a
list. -/
def c3Ctx : Ctx := [("v", .vList [])]

/-- Claim C3 is false on the code: a list value for a variable of declared
kind `object` (the "structured" kind) is *rejected* — `validateContext`
reports a kind-mismatch error for it — whereas the claim says lists and
mappings are both accepted for that kind. -/
theorem validate_object_list_counterexample :
    (validateContext c3Template c3Ctx).errors =
      [⟨"semantic", typeErrMsg "v" "object" "array"⟩] ∧
    (validateContext c3Template c3Ctx).valid = false :=
  ⟨rfl, rfl⟩

/-- Claim C3 (amended): context validation reports an error for each present
value whose structural type does not match the declared kind, where for the
`object` (structured) kind only mappings are accepted — a list matches only
the `array` kind — and the error message names the variable, the expected
kind and the actual kind.  Stated as: (1) `validateVariableType` errs
exactly on `typeMatches` failures, with the three-part message; (2) that
message contains the variable name, the expected kind and the actual kind;
(3) every declared variable whose present, non-null value fails
`typeMatches` contributes its mismatch error to `validateContext`'s error
list. -/
theorem validateContext_kind_errors :
    (∀ (name : String) (v : Value) (t : String),
      validateVariableType name v t =
        if typeMatches t v then none
        else some ⟨"semantic", typeErrMsg name t (actualTypeOf v)⟩) ∧
    (∀ (name t a : String),
      containsSub (typeErrMsg name t a).data name.data = true ∧
      containsSub (typeErrMsg name t a).data t.data = true ∧
      containsSub (typeErrMsg name t a).data a.data = true) ∧
    (∀ (template : Template) (ctxVars : Ctx) (tvars : List Variable)
       (vr : Variable) (v : Value),
      template.«variables» = jval tvars → vr ∈ tvars →
      lookupVar ctxVars vr.name = some v → v ≠ .vNull →
      typeMatches vr.type v = false →
      (⟨"semantic", typeErrMsg vr.name vr.type (actualTypeOf v)⟩ : VError) ∈
        (validateContext template ctxVars).errors) := by
  refine ⟨?_, ?_, ?_⟩
  · intro name v t
    by_cases ht : t = "object" <;>
      cases v <;>
        simp [validateVariableType, typeMatches, actualTypeOf, ht]
  · intro name t a
    refine ⟨?_, ?_, ?_⟩
    · have := containsSub_append_mid "Variable \x27".data name.data
        ("\x27 expected type \x27" ++ t ++ "\x27 but got \x27" ++ a ++ "\x27").data
      simpa [typeErrMsg, List.append_assoc] using this
    · have := containsSub_append_mid
        ("Variable \x27" ++ name ++ "\x27 expected type \x27").data t.data
        ("\x27 but got \x27" ++ a ++ "\x27").data
      simpa [typeErrMsg, List.append_assoc] using this
    · have := containsSub_append_mid
        ("Variable \x27" ++ name ++ "\x27 expected type \x27" ++ t ++ "\x27 but got \x27").data
        a.data ("\x27".data)
      simpa [typeErrMsg, List.append_assoc] using this
  · intro template ctxVars tvars vr v hvars hvr hlook hnull hmatch
    have herr : validateVariableType vr.name v vr.type =
        some ⟨"semantic", typeErrMsg vr.name vr.type (actualTypeOf v)⟩ := by
      by_cases ht : vr.type = "object" <;>
        cases v <;>
          simp_all [validateVariableType, typeMatches, actualTypeOf, ht]
    have hres : (validateContext template ctxVars).errors =
        validateVarsErrors tvars ctxVars := by
      simp [validateContext, hvars, jval]
    rw [hres]
    rw [validateVarsErrors_eq]
    rw [List.mem_flatMap]
    refine ⟨vr, hvr, ?_⟩
    cases v with
    | vNull => exact absurd rfl hnull
    | vStr s => rw [hlook]; simp [herr]
    | vNum n => rw [hlook]; simp [herr]
    | vBool b => rw [hlook]; simp [herr]
    | vList xs => rw [hlook]; simp [herr]
    | vObj fs => rw [hlook]; simp [herr]

/-- Claim C3 witness: instantiating the amended theorem on the concrete
`object`-kind variable with a list value. -/
theorem validateContext_kind_errors_witness :
    (⟨"semantic", typeErrMsg "v" "object" "array"⟩ : VError) ∈
      (validateContext c3Template c3Ctx).errors :=
  validateContext_kind_errors.2.2 c3Template c3Ctx _ ⟨"v", "object", some false, none, none⟩
    (.vList []) rfl (List.mem_singleton.mpr rfl) rfl
    (fun h => Value.noConfusion h) rfl


/-! ## Claim C4: mutual-extends registration -/

/-- Template A of the C4 scenario, extending B. -/
def c4A : Template :=
  { id := "A", name := "Template A", description := none, version := none,
    author := none, «extends» := jval "B", «variables» := none,
    contextLoading := none, taskDefinition := none, thinkingLevel := none,
    content := "body A", metadata := none }

/-- Template B of the C4 scenario, extending A. -/
def c4B : Template :=
  { id := "B", name := "Template B", description := none, version := none,
    author := none, «extends» := jval "A", «variables» := none,
    contextLoading := none, taskDefinition := none, thinkingLevel := none,
    content := "body B", metadata := none }

/-- Template B without an `extends`, for the stored-cycle variant. -/
def c4B0 : Template :=
  { id := "B", name := "Template B", description := none, version := none,
    author := none, «extends» := none, «variables» := none,
    contextLoading := none, taskDefinition := none, thinkingLevel := none,
    content := "body B", metadata := none }

/-- Claim C4 is false on the code: starting from the empty registry, the
*first* register call (A extends B) already fails — the inheritance walk
requires every chain link to be stored, so the forward reference to the
not-yet-registered B is rejected with a parent-not-found error and the
registry is unchanged — and the second call (B extends A, A still absent)
then fails with a parent-not-found error as well, not with a
circular-inheritance error. -/
theorem register_cycle_counterexample :
    register emptyRegistry c4A = (.err "Parent template not found: B", emptyRegistry) ∧
    register emptyRegistry c4B = (.err "Parent template not found: A", emptyRegistry) ∧
    containsSub "Parent template not found: A".data "Circular".data = false ∧
    containsSub "Parent template not found: A".data "circular".data = false ∧
    containsSub "Parent template not found: A".data "inherit".data = false :=
  ⟨rfl, rfl, by decide, by decide, by decide⟩

/-- Claim C4 (amended): from the empty registry, registering A with
extends=B fails with a parent-not-found error (forward references are
rejected at registration time), and registering B with extends=A afterwards
fails with a parent-not-found error too; each failed register leaves the
registry unchanged, so no registration succeeds even partially.  A
circular-inheritance-family error arises only when a register call closes a
cycle over *stored* templates: after registering B (no extends) and A
(extends B), re-registering B with extends=A fails with the self-inheritance
diagnostic and leaves the previously stored templates intact. -/
theorem register_forward_reference_and_cycle :
    register emptyRegistry c4A = (.err "Parent template not found: B", emptyRegistry) ∧
    register emptyRegistry c4B = (.err "Parent template not found: A", emptyRegistry) ∧
    (register (register (register emptyRegistry c4B0).2 c4A).2 c4B).1 =
      .err "Template cannot inherit from itself: B" ∧
    (register (register (register emptyRegistry c4B0).2 c4A).2 c4B).2 =
      (register (register emptyRegistry c4B0).2 c4A).2 ∧
    existsTemplate (register (register emptyRegistry c4B0).2 c4A).2 "A" = true ∧
    existsTemplate (register (register emptyRegistry c4B0).2 c4A).2 "B" = true :=
  ⟨rfl, rfl, rfl, rfl, rfl, rfl⟩

/-! ## Claim C5: removing a depended-upon template -/

theorem findDependentTemplates_iff (tmpls : List (String × Template)) (id d : String) :
    d ∈ findDependentTemplates tmpls id ↔
      ∃ t, (d, t) ∈ tmpls ∧ t.«extends» = jval id := by
  constructor
  · intro hd
    rcases List.mem_map.mp hd with ⟨p, hp, hpd⟩
    rcases List.mem_filter.mp hp with ⟨hmem, hpred⟩
    refine ⟨p.2, ?_, ?_⟩
    · rw [← hpd]
      simpa using hmem
    · revert hpred
      rcases p.2.«extends» with _ | (_ | e) <;> simp [jval]
  · rintro ⟨t, hmem, hext⟩
    exact List.mem_map.mpr ⟨(d, t),
      List.mem_filter.mpr ⟨hmem, by simp [hext, jval]⟩, rfl⟩

/-- Claim C5: on any registry state storing `id`, if some stored template
has `extends = id` then `remove id` fails with the error listing the
blocking dependent ids, the registry is unchanged, the target still exists,
every dependent still exists, and the listed dependents are exactly the
stored templates whose `extends` equals `id`. -/
theorem remove_blocked (s : RegistryState) (id : String)
    (hhas : mapHas s.templates id = true)
    (hdep : findDependentTemplates s.templates id ≠ []) :
    removeTemplate s id =
      (.err ("Cannot remove template " ++ id ++ ": other templates inherit from it: " ++
        String.intercalate ", " (findDependentTemplates s.templates id)), s) ∧
    existsTemplate s id = true ∧
    (∀ d ∈ findDependentTemplates s.templates id, existsTemplate s d = true) ∧
    (∀ d, d ∈ findDependentTemplates s.templates id ↔
      ∃ t, (d, t) ∈ s.templates ∧ t.«extends» = jval id) := by
  have hlen : 0 < (findDependentTemplates s.templates id).length :=
    List.length_pos.mpr hdep
  refine ⟨?_, hhas, ?_, fun d => findDependentTemplates_iff s.templates id d⟩
  · unfold removeTemplate
    rw [hhas]
    simp [hlen]
  · intro d hd
    rcases (findDependentTemplates_iff s.templates id d).mp hd with ⟨t, hmem, _⟩
    unfold existsTemplate mapHas
    rw [List.find?_isSome]
    exact ⟨(d, t), hmem, by simp⟩

/-- The base template of the C5 witness. -/
def c5Base : Template :=
  { id := "B", name := "Base", description := none, version := none,
    author := none, «extends» := none, «variables» := none,
    contextLoading := none, taskDefinition := none, thinkingLevel := none,
    content := "base body", metadata := none }

/-- The dependent template of the C5 witness, extending `B`. -/
def c5Child : Template :=
  { id := "A", name := "Child", description := none, version := none,
    author := none, «extends» := jval "B", «variables» := none,
    contextLoading := none, taskDefinition := none, thinkingLevel := none,
    content := "child body", metadata := none }

/-- A registry state storing `B` and a template `A` that extends it. -/
def c5State : RegistryState := ⟨[("B", c5Base), ("A", c5Child)], []⟩

/-- Claim C5 witness: removing `B` from `c5State` fails with the error
naming the dependent `A`, and both templates still exist. -/
theorem remove_blocked_witness :
    removeTemplate c5State "B" =
      (.err ("Cannot remove template " ++ "B" ++ ": other templates inherit from it: " ++
        String.intercalate ", " (findDependentTemplates c5State.templates "B")), c5State) ∧
    existsTemplate c5State "B" = true ∧
    existsTemplate c5State "A" = true :=
  have h := remove_blocked c5State "B" (by decide) (by decide)
  ⟨h.1, h.2.1, h.2.2.1 "A" (by decide)⟩

/-! ## Claim C6: idempotence of `getResolved` -/

theorem getResolvedGo_templates (f : Nat) (s : RegistryState) (id : String) :
    ((getResolvedGo f s id).2).templates = s.templates := by
  induction f generalizing s id with
  | zero => rfl
  | succ f ih =>
    rw [getResolvedGo]
    split
    · rfl
    · split
      · rfl
      · split
        · dsimp only
          split
          · rename_i heq
            dsimp only
            have h2 := congrArg (fun p => (p.2).templates) heq
            dsimp only at h2
            rw [← h2]
            exact ih s _
          · rename_i heq
            dsimp only
            have h2 := congrArg (fun p => (p.2).templates) heq
            dsimp only at h2
            rw [← h2]
            exact ih s _
        · rfl

theorem getResolvedGo_err_state (f : Nat) (s : RegistryState) (id : String) (e : String)
    (he : (getResolvedGo f s id).1 = .err e) : (getResolvedGo f s id).2 = s := by
  induction f generalizing s id e with
  | zero => rfl
  | succ f ih =>
    rcases hres : getResolvedGo (f + 1) s id with ⟨r, s2⟩
    rw [hres] at he
    dsimp only at he ⊢
    rw [getResolvedGo] at hres
    split at hres
    · rename_i cached hcache
      injection hres with h1 h2
      rw [← h1] at he
      exact absurd he (by simp)
    · split at hres
      · injection hres with h1 h2
        exact h2.symm
      · split at hres
        · dsimp only at hres
          split at hres
          · rename_i e1 s1 heq
            injection hres with h1 h2
            have hprev : (getResolvedGo f s _).2 = s := ih s _ e1 (by rw [heq])
            rw [heq] at hprev
            dsimp only at hprev
            rw [← h2]
            exact hprev
          · rename_i parent s1 heq
            injection hres with h1 h2
            rw [← h1] at he
            exact absurd he (by simp)
        · injection hres with h1 h2
          rw [← h1] at he
          exact absurd he (by simp)

theorem mapGet_map_update {α : Type} (m : List (String × α)) (k : String) (v : α)
    (hhas : mapHas m k = true) :
    mapGet (m.map (fun p => if p.1 == k then (k, v) else p)) k = some v := by
  induction m with
  | nil => simp [mapHas, mapGet] at hhas
  | cons p m ih =>
    by_cases hp : p.1 == k
    · simp [mapGet, List.find?, hp]
    · have hm : mapHas m k = true := by
        have := hhas
        unfold mapHas at this ⊢
        rw [List.find?] at this
        simp only [hp] at this
        simpa using this
      have := ih hm
      simp only [List.map, mapGet, List.find?] at this ⊢
      simp only [hp, Bool.false_eq_true, if_false]
      simpa [hp] using this

theorem mapGet_mapSet_self {α : Type} (m : List (String × α)) (k : String) (v : α) :
    mapGet (mapSet m k v) k = some v := by
  unfold mapSet
  split
  · rename_i hhas
    exact mapGet_map_update m k v hhas
  · rename_i hhas
    have hnone : m.find? (fun p => p.1 == k) = none := by
      rw [← Option.not_isSome_iff_eq_none]
      simpa [mapHas] using hhas
    simp [mapGet, List.find?_append, hnone, List.find?]

theorem getResolvedGo_ok_cached (f : Nat) (s : RegistryState) (id : String) (t : Template)
    (ht : (getResolvedGo f s id).1 = .ok t) :
    mapGet ((getResolvedGo f s id).2).inheritanceCache id = some t := by
  cases f with
  | zero => exact absurd ht (by simp [getResolvedGo])
  | succ f =>
    rcases hres : getResolvedGo (f + 1) s id with ⟨r, s2⟩
    rw [hres] at ht
    dsimp only at ht ⊢
    rw [getResolvedGo] at hres
    split at hres
    · rename_i cached hcache
      injection hres with h1 h2
      rw [← h2]
      have hct : cached = t := by
        have h3 := h1.trans ht
        injection h3
      rw [← hct]
      exact hcache
    · split at hres
      · injection hres with h1 h2
        rw [← h1] at ht
        exact absurd ht (by simp)
      · split at hres
        · dsimp only at hres
          split at hres
          · injection hres with h1 h2
            rw [← h1] at ht
            exact absurd ht (by simp)
          · rename_i parent s1 heq
            injection hres with h1 h2
            rw [← h1] at ht
            injection ht with hmt
            rw [← h2]
            dsimp only
            rw [← hmt]
            exact mapGet_mapSet_self _ _ _
        · injection hres with h1 h2
          rw [← h1] at ht
          injection ht with hbt
          rw [← h2]
          dsimp only
          rw [← hbt]
          exact mapGet_mapSet_self _ _ _

/-- Claim C6: `getResolved` is idempotent — calling it twice in a row with
no intervening `register` or `remove` returns the same result both times
(same success or failure, and on success the same resolved template): the
first successful call caches the resolved template and the second call
serves it from the cache; a failing call leaves the state untouched, so the
second call recomputes the identical failure. -/
theorem getResolved_idempotent (s : RegistryState) (id : String) :
    (getResolved ((getResolved s id).2) id).1 = (getResolved s id).1 := by
  unfold getResolved
  rw [getResolvedGo_templates (s.templates.length + 1) s id]
  cases hr : (getResolvedGo (s.templates.length + 1) s id).1 with
  | err e =>
    rw [getResolvedGo_err_state _ s id e hr]
    exact hr
  | ok t =>
    have hc := getResolvedGo_ok_cached _ s id t hr
    rw [getResolvedGo]
    rw [hc]

/-! ## Claim C10: empty-query search -/

theorem containsSub_nil (hay : List Char) : containsSub hay [] = true := by
  unfold containsSub
  rw [List.any_eq_true]
  exact ⟨0, List.mem_range.mpr (Nat.succ_pos _), by simp [List.isPrefixOf]⟩

/-- Claim C10: searching with the empty-string query succeeds and returns
exactly the same templates, in the same insertion-stable order and with the
same count, as `list` — every searchable text contains the empty substring. -/
theorem search_empty_query_eq_list (s : RegistryState) :
    search s "" = listTemplates s := by
  unfold search listTemplates
  have hq : (strToLower "").data = [] := rfl
  simp only [hq]
  congr 1
  have : s.templates.filter
      (fun p => containsSub (searchableText p.2).data []) = s.templates :=
    List.filter_eq_self.mpr (fun p _ => containsSub_nil _)
  rw [this]


/-! ## Claims C7 and C8: simple-substitution behaviour -/

theorem matchSimpleAt_none_head {c : Char} {t : List Char} (hc : c ≠ '{') :
    matchSimpleAt (c :: t) = none := by
  unfold matchSimpleAt
  split
  · rename_i heq
    exact absurd rfl (by injection heq with h1 _; exact h1 ▸ hc)
  · rfl

theorem scanWithF_skip {α : Type} (m : List Char → Option (α × Nat))
    (hdl : α → List Char × List String) (a b : List Char) (f : Nat)
    (ha : ∀ i, i < a.length → m (a.drop i ++ b) = none) :
    scanWithF m hdl (f + a.length) (a ++ b) =
      (a ++ (scanWithF m hdl f b).1, (scanWithF m hdl f b).2) := by
  induction a with
  | nil => simp
  | cons c a2 ih =>
    have harith : f + (c :: a2).length = (f + a2.length) + 1 := by
      simp only [List.length_cons]
      omega
    rw [List.cons_append, harith, scanWithF]
    have h0 : m (c :: (a2 ++ b)) = none := by
      have h := ha 0 (by simp)
      simpa using h
    rw [h0]
    have hr := ih (fun i hi => by
      have h := ha (i + 1) (by simpa using Nat.succ_lt_succ hi)
      simpa using h)
    dsimp only
    rw [hr]
    simp

theorem takeWhile_no_brace (n : List Char) (b2 : List Char) (hn : '}' ∉ n) :
    (n ++ '}' :: b2).takeWhile (fun x => x != '}') = n := by
  induction n with
  | nil => simp
  | cons c n2 ih =>
    have hc : c ≠ '}' := fun e => hn (e ▸ List.mem_cons_self _ _)
    simp [List.takeWhile_cons, hc, ih (fun hm => hn (List.mem_cons_of_mem _ hm))]

theorem matchSimpleAt_refToken (n b : List Char) (hne : n ≠ []) (hn : '}' ∉ n) :
    matchSimpleAt ('{' :: '{' :: (n ++ '}' :: '}' :: b)) = some (n, n.length + 4) := by
  simp only [matchSimpleAt]
  rw [takeWhile_no_brace n ('}' :: b) hn]
  have hemp : n.isEmpty = false := by
    cases n with
    | nil => exact absurd rfl hne
    | cons c n2 => rfl
  rw [hemp]
  have hdrop : (n ++ '}' :: '}' :: b).drop n.length = '}' :: '}' :: b := by
    have h := List.drop_left n ('}' :: '}' :: b)
    exact h
  rw [hdrop]
  rfl

theorem substHandler_defined (vars : Ctx) (raw : List Char) (v : Value)
    (hlook : lookupVar vars (strOfTrim raw) = some v) (hv : v ≠ .vNull) :
    substHandler vars raw = ((formatValue v).data, []) := by
  unfold substHandler
  dsimp only
  rw [hlook]
  cases v with
  | vNull => exact absurd rfl hv
  | vStr s => rfl
  | vNum n => rfl
  | vBool b => rfl
  | vList xs => rfl
  | vObj fs => rfl

theorem substHandler_undefined (vars : Ctx) (raw : List Char)
    (hlook : lookupVar vars (strOfTrim raw) = none ∨
      lookupVar vars (strOfTrim raw) = some .vNull) :
    substHandler vars raw =
      ('{' :: '{' :: raw ++ ['}', '}'], [undefinedWarn (strOfTrim raw)]) := by
  unfold substHandler
  dsimp only
  rcases hlook with h | h <;> rw [h]

theorem containsSub_false_of_not_mem {hay p : List Char} {c : Char} (hc : c ∉ hay) :
    containsSub hay (c :: p) = false := by
  unfold containsSub
  rw [List.any_eq_false]
  intro i _
  intro hpre
  have hsub := ((List.isPrefixOf_iff_prefix).mp hpre).subset (List.mem_cons_self c p)
  exact absurd (List.mem_of_mem_drop hsub) hc

/-- A body made only of simple references: literal text with no braces, and
`\x7b\x7bNAME\x7d\x7d` tokens. -/
inductive Seg where
  | lit (s : List Char)
  | ref (n : List Char)

/-- The concrete text of one segment. -/
def segText : Seg → List Char
  | .lit s => s
  | .ref n => '{' :: '{' :: (n ++ ['}', '}'])

/-- The body text of a segment list. -/
def bodyText (segs : List Seg) : List Char := (segs.map segText).flatten

/-- Well-formedness of a segment: literal text is brace-free, and a
reference name is non-empty and brace-free. -/
def segOK : Seg → Prop
  | .lit s => '{' ∉ s ∧ '}' ∉ s
  | .ref n => n ≠ [] ∧ '{' ∉ n ∧ '}' ∉ n

theorem bodyText_cons (sg : Seg) (rest : List Seg) :
    bodyText (sg :: rest) = segText sg ++ bodyText rest := by
  simp [bodyText]

theorem substScan_segs (vars : Ctx) (segs : List Seg)
    (hok : ∀ sg ∈ segs, segOK sg)
    (hval : ∀ n, Seg.ref n ∈ segs →
      ∃ v, lookupVar vars (strOfTrim n) = some v ∧ v ≠ .vNull ∧
        '{' ∉ (formatValue v).data ∧ '}' ∉ (formatValue v).data) :
    ∀ f, (bodyText segs).length ≤ f →
      '{' ∉ (scanWithF matchSimpleAt (substHandler vars) f (bodyText segs)).1 ∧
      '}' ∉ (scanWithF matchSimpleAt (substHandler vars) f (bodyText segs)).1 ∧
      (scanWithF matchSimpleAt (substHandler vars) f (bodyText segs)).2 = [] := by
  induction segs with
  | nil =>
    intro f _
    cases f <;> simp [bodyText, scanWithF]
  | cons sg rest ih =>
    have hokr : ∀ s2 ∈ rest, segOK s2 := fun s2 hs => hok s2 (List.mem_cons_of_mem _ hs)
    have hvalr : ∀ n, Seg.ref n ∈ rest →
        ∃ v, lookupVar vars (strOfTrim n) = some v ∧ v ≠ .vNull ∧
          '{' ∉ (formatValue v).data ∧ '}' ∉ (formatValue v).data :=
      fun n hn => hval n (List.mem_cons_of_mem _ hn)
    intro f hf
    rw [bodyText_cons] at hf ⊢
    cases sg with
    | lit l =>
      obtain ⟨hl1, hl2⟩ := hok _ (List.mem_cons_self _ _)
      rw [show segText (Seg.lit l) = l from rfl] at hf ⊢
      have hfl : l.length + (bodyText rest).length ≤ f := by
        simpa [List.length_append] using hf
      have hfe : f = (f - l.length) + l.length := by omega
      rw [hfe]
      rw [scanWithF_skip matchSimpleAt (substHandler vars) l (bodyText rest) (f - l.length)
        (fun i hi => by
          rw [List.drop_eq_getElem_cons hi, List.cons_append]
          exact matchSimpleAt_none_head (fun e => hl1 (e ▸ List.getElem_mem hi)))]
      obtain ⟨r1, r2, r3⟩ := ih hokr hvalr (f - l.length) (by omega)
      refine ⟨?_, ?_, by simpa using r3⟩
      · dsimp only
        rw [List.mem_append]
        rintro (h | h)
        · exact hl1 h
        · exact r1 h
      · dsimp only
        rw [List.mem_append]
        rintro (h | h)
        · exact hl2 h
        · exact r2 h
    | ref n =>
      obtain ⟨hn0, hn1, hn2⟩ := hok _ (List.mem_cons_self _ _)
      obtain ⟨v, hlv, hvn, hv1, hv2⟩ := hval n (List.mem_cons_self _ _)
      have hshape : segText (Seg.ref n) ++ bodyText rest =
          '{' :: '{' :: (n ++ '}' :: '}' :: bodyText rest) := by
        simp [segText]
      rw [hshape] at hf ⊢
      have hflen : n.length + 4 + (bodyText rest).length ≤ f := by
        simp only [List.length_cons, List.length_append] at hf
        omega
      cases f with
      | zero => omega
      | succ f2 =>
        rw [scanWithF]
        rw [matchSimpleAt_refToken n (bodyText rest) hn0 hn2]
        dsimp only
        rw [substHandler_defined vars n v hlv hvn]
        have hmax : (n.length + 4).max 1 = n.length + 4 := Nat.max_eq_left (by omega)
        rw [hmax]
        have hdrop : ('{' :: '{' :: (n ++ '}' :: '}' :: bodyText rest)).drop (n.length + 4) =
            bodyText rest := by
          have hsplit : ('{' :: '{' :: (n ++ '}' :: '}' :: bodyText rest)) =
              ('{' :: '{' :: (n ++ ['}', '}'])) ++ bodyText rest := by simp
          rw [hsplit]
          have hlen : ('{' :: '{' :: (n ++ ['}', '}'])).length = n.length + 4 := by
            simp [List.length_append]
          rw [← hlen, List.drop_left]
        rw [hdrop]
        obtain ⟨r1, r2, r3⟩ := ih hokr hvalr f2 (by omega)
        refine ⟨?_, ?_, by simpa using r3⟩
        · dsimp only
          rw [List.mem_append]
          rintro (h | h)
          · exact hv1 h
          · exact r1 h
        · dsimp only
          rw [List.mem_append]
          rintro (h | h)
          · exact hv2 h
          · exact r2 h

theorem substSimple_segs (vars : Ctx) (segs : List Seg)
    (hok : ∀ sg ∈ segs, segOK sg)
    (hval : ∀ n, Seg.ref n ∈ segs →
      ∃ v, lookupVar vars (strOfTrim n) = some v ∧ v ≠ .vNull ∧
        '{' ∉ (formatValue v).data ∧ '}' ∉ (formatValue v).data) :
    '{' ∉ (substSimple vars (bodyText segs)).1 ∧
    '}' ∉ (substSimple vars (bodyText segs)).1 ∧
    (substSimple vars (bodyText segs)).2 = [] :=
  substScan_segs vars segs hok hval ((bodyText segs).length + 1) (Nat.le_succ _)

/-- Claim C7 (amended): for every body made only of simple
`\x7b\x7bx\x7d\x7d` references and brace-free literal text, and every
context providing, for each referenced key, a non-null value whose
*formatted form contains no brace characters*, the interpolation output
contains no remaining `\x7b\x7b` or `\x7d\x7d` tokens.  (The extra
condition on the formatted values is forced by the counterexample below:
a provided value may itself inject brace text into the output.) -/
theorem interpolate_simple_refs_no_brace_tokens (fuel : Nat) (vars : Ctx) (segs : List Seg)
    (hok : ∀ sg ∈ segs, segOK sg)
    (hval : ∀ n, Seg.ref n ∈ segs →
      ∃ v, lookupVar vars (strOfTrim n) = some v ∧ v ≠ .vNull ∧
        '{' ∉ (formatValue v).data ∧ '}' ∉ (formatValue v).data) :
    containsSub (interpolateVariables (fuel + 1) vars (bodyText segs)).1 ['{', '{'] = false ∧
    containsSub (interpolateVariables (fuel + 1) vars (bodyText segs)).1 ['}', '}'] = false := by
  obtain ⟨h1, h2, hw⟩ := substSimple_segs vars segs hok hval
  have hpipe : (interpolateVariables (fuel + 1) vars (bodyText segs)).1 =
      (substSimple vars (bodyText segs)).1 := by
    rw [interpolateVariables]
    dsimp only
    rw [processConditionals_id (List.mem_cons_self _ _) h1]
    dsimp only
    rw [processLoops_id (List.mem_cons_self _ _) h1]
    dsimp only
    rw [processEquality_id (List.mem_cons_self _ _) h1]
    dsimp only
    rw [processSwitch_id (List.mem_cons_self _ _) h1]
  rw [hpipe]
  exact ⟨containsSub_false_of_not_mem h1, containsSub_false_of_not_mem h2⟩

/-- The C7 counterexample context: `x` is provided and non-null, but its
value is the string `\x7b\x7b`. -/
def c7Ctx : Ctx := [("x", .vStr "\x7b\x7b")]

/-- Claim C7 is false as stated: the body `\x7b\x7bx\x7d\x7d` uses only
simple references and `c7Ctx` provides a non-null value for `x`, yet the
interpolation output is `\x7b\x7b`, which still contains a `\x7b\x7b`
token — the substituted value itself reintroduces brace text. -/
theorem interpolate_simple_refs_counterexample :
    (interpolateStr 5 c7Ctx "\x7b\x7bx\x7d\x7d").1 = "\x7b\x7b" ∧
    containsSub (interpolateStr 5 c7Ctx "\x7b\x7bx\x7d\x7d").1.data "\x7b\x7b".data = true ∧
    lookupVar c7Ctx "x" = some (.vStr "\x7b\x7b") ∧
    (Value.vStr "\x7b\x7b") ≠ .vNull :=
  ⟨by decide, by decide, rfl, fun h => Value.noConfusion h⟩

/-- Claim C7 witness: the amended theorem applied to the concrete body
`Hello \x7b\x7bname\x7d\x7d` with `name = "World"`. -/
theorem interpolate_simple_refs_no_brace_tokens_witness :
    containsSub (interpolateVariables 4 [("name", Value.vStr "World")]
      (bodyText [Seg.lit "Hello ".data, Seg.ref "name".data])).1 ['{', '{'] = false ∧
    containsSub (interpolateVariables 4 [("name", Value.vStr "World")]
      (bodyText [Seg.lit "Hello ".data, Seg.ref "name".data])).1 ['}', '}'] = false := by
  refine interpolate_simple_refs_no_brace_tokens 3 [("name", Value.vStr "World")]
    [Seg.lit "Hello ".data, Seg.ref "name".data] ?_ ?_
  · intro sg hsg
    rcases List.mem_cons.mp hsg with h | h
    · subst h
      exact ⟨by decide, by decide⟩
    · have h2 := List.mem_singleton.mp h
      subst h2
      exact ⟨by decide, by decide, by decide⟩
  · intro n hn
    rcases List.mem_cons.mp hn with h | h
    · exact Seg.noConfusion h
    · have h2 := List.mem_singleton.mp h
      injection h2 with hn2
      subst hn2
      exact ⟨Value.vStr "World", rfl, fun hh => Value.noConfusion hh, by decide, by decide⟩

/-- Claim C8: a simple substitution whose variable is undefined or null
never fails — interpolation is total, the literal placeholder token is
preserved unchanged in the output (not deleted), and the undefined-variable
warning diagnostic is emitted.  The body is literal brace-free text around
one `\x7b\x7bNAME\x7d\x7d` placeholder (`#`-free so that no directive stage
applies). -/
theorem interpolate_undefined_preserved (fuel : Nat) (vars : Ctx) (a nm b : List Char)
    (ha1 : '{' ∉ a) (ha2 : '#' ∉ a)
    (hb1 : '{' ∉ b) (hb2 : '#' ∉ b)
    (hn0 : nm ≠ []) (_hn1 : '{' ∉ nm) (hn2 : '}' ∉ nm) (hn3 : '#' ∉ nm)
    (hlook : lookupVar vars (strOfTrim nm) = none ∨
      lookupVar vars (strOfTrim nm) = some .vNull) :
    interpolateVariables (fuel + 1) vars (a ++ '{' :: '{' :: (nm ++ '}' :: '}' :: b)) =
      (a ++ '{' :: '{' :: (nm ++ '}' :: '}' :: b), [undefinedWarn (strOfTrim nm)]) := by
  have hsub : substSimple vars (a ++ '{' :: '{' :: (nm ++ '}' :: '}' :: b)) =
      (a ++ '{' :: '{' :: (nm ++ '}' :: '}' :: b), [undefinedWarn (strOfTrim nm)]) := by
    unfold substSimple scanWith
    have hlen : (a ++ '{' :: '{' :: (nm ++ '}' :: '}' :: b)).length + 1 =
        (nm.length + 4 + b.length + 1) + a.length := by
      simp [List.length_append]
      omega
    rw [hlen]
    rw [scanWithF_skip matchSimpleAt (substHandler vars) a _ _
      (fun i hi => by
        rw [List.drop_eq_getElem_cons hi, List.cons_append]
        exact matchSimpleAt_none_head (fun e => ha1 (e ▸ List.getElem_mem hi)))]
    rw [scanWithF]
    rw [matchSimpleAt_refToken nm b hn0 hn2]
    dsimp only
    rw [substHandler_undefined vars nm hlook]
    have hmax : (nm.length + 4).max 1 = nm.length + 4 := Nat.max_eq_left (by omega)
    rw [hmax]
    have hdrop : ('{' :: '{' :: (nm ++ '}' :: '}' :: b)).drop (nm.length + 4) = b := by
      have hsplit : ('{' :: '{' :: (nm ++ '}' :: '}' :: b)) =
          ('{' :: '{' :: (nm ++ ['}', '}'])) ++ b := by simp
      rw [hsplit]
      have hlen2 : ('{' :: '{' :: (nm ++ ['}', '}'])).length = nm.length + 4 := by
        simp [List.length_append]
      rw [← hlen2, List.drop_left]
    rw [hdrop]
    rw [scanWithF_id matchSimpleAt (substHandler vars) _ b
      (fun i => matchSimpleAt_none (fun hm => hb1 (List.mem_of_mem_drop hm)))]
    simp
  have hwhole : '#' ∉ a ++ '{' :: '{' :: (nm ++ '}' :: '}' :: b) := by
    intro hmem
    simp only [List.mem_append, List.mem_cons] at hmem
    rcases hmem with h | h | h | h | h | h
    · exact ha2 h
    · exact absurd h (by decide)
    · exact absurd h (by decide)
    · exact hn3 h
    · exact absurd h (by decide)
    · rcases h with h | h
      · exact absurd h (by decide)
      · exact hb2 h
  simp only [interpolateVariables, hsub,
    processConditionals_id (show '#' ∈ '{' :: '{' :: "#if".data by decide) hwhole,
    processLoops_id (show '#' ∈ '{' :: '{' :: "#each".data by decide) hwhole,
    processEquality_id (show '#' ∈ dirPre "#if_equals" by decide) hwhole,
    processSwitch_id (show '#' ∈ '{' :: '{' :: "#switch".data by decide) hwhole,
    List.append_nil, List.nil_append]

/-- Claim C8 witness: `Hi \x7b\x7buser\x7d\x7d!` with an empty context
keeps the placeholder and emits exactly the undefined-variable warning. -/
theorem interpolate_undefined_preserved_witness :
    interpolateVariables 2 [] ("Hi ".data ++ '{' :: '{' :: ("user".data ++ '}' :: '}' :: "!".data)) =
      ("Hi ".data ++ '{' :: '{' :: ("user".data ++ '}' :: '}' :: "!".data),
        [undefinedWarn (strOfTrim "user".data)]) :=
  interpolate_undefined_preserved 1 [] "Hi ".data "user".data "!".data
    (by decide) (by decide) (by decide) (by decide)
    (by decide) (by decide) (by decide) (by decide) (Or.inl rfl)

end PromptToolkit
